import Mathlib

/-!
Verification of the Flashloan-Arbitrage opportunity-evaluation and
risk-gated execution pipeline.  The JavaScript sources are shallowly
embedded: money amounts and prices are exact rationals, timestamps are
integers (milliseconds unless noted), machine booleans are `Bool`, and
fallible external calls are explicit parameters describing the outcome
the environment returned.
-/

namespace FlashArb

/-! ## Shared data model -/

/-- Opportunity record emitted by `DexPriceFetcher.findArbitrageOpportunity`
and consumed by `ProfitCalculator.calculateArbitrageProfitability`.
Wei-denominated amounts are kept as rationals. -/
structure ArbOpportunity where
  tokenA : String
  tokenB : String
  buyDex : String
  sellDex : String
  buyPrice : ℚ
  sellPrice : ℚ
  profitPercentage : ℚ
  amountIn : ℚ
  buyAmountOut : ℚ
  sellAmountOut : ℚ
deriving DecidableEq

/-! ## ProfitCalculator (src/src/ProfitCalculator.js) -/

/-- Aave flashloan premium constant, 0.09%. -/
def AAVE_FLASHLOAN_FEE : ℚ := 9 / 10000

/-- Uniswap V2 fee constant, 0.3%. -/
def UNISWAP_V2_FEE : ℚ := 3 / 1000

/-- Uniswap V3 fee constant as used by the calculator, 0.3%. -/
def UNISWAP_V3_FEE : ℚ := 3 / 1000

/-- Sushiswap fee constant, 0.3%. -/
def SUSHISWAP_FEE : ℚ := 3 / 1000

/-- The `ethers.utils.formatEther` conversion: wei to ether. -/
def formatEther (wei : ℚ) : ℚ := wei / 10 ^ 18

/-- Gas estimate table of the calculator (FLASHLOAN_BASE, UNISWAP_V2_SWAP,
TOKEN_TRANSFER, BUFFER entries that the total uses). -/
def GAS_FLASHLOAN_BASE : ℕ := 150000

/-- Per Uniswap-V2-style swap gas estimate. -/
def GAS_UNISWAP_V2_SWAP : ℕ := 120000

/-- Token transfer gas estimate. -/
def GAS_TOKEN_TRANSFER : ℕ := 21000

/-- Safety buffer gas estimate. -/
def GAS_BUFFER : ℕ := 50000

/-- Total gas estimate used by `calculateArbitrageProfitability`:
base + two swaps + two transfers + buffer. -/
def totalGasEstimate : ℕ :=
  GAS_FLASHLOAN_BASE + GAS_UNISWAP_V2_SWAP * 2 + GAS_TOKEN_TRANSFER * 2 + GAS_BUFFER

/-- `calculateDexFee`: fee on a wei amount for a venue type; every branch of
the source switch yields 0.3%. -/
def calculateDexFee (amountIn : ℚ) (dexType : String) : ℚ :=
  let feeRate :=
    if dexType = "UNISWAP_V2" then UNISWAP_V2_FEE
    else if dexType = "UNISWAP_V3" then UNISWAP_V3_FEE
    else if dexType = "SUSHISWAP" then SUSHISWAP_FEE
    else 3 / 1000
  formatEther amountIn * feeRate

/-- `calculateGasCost`: gas price in gwei times estimate, in wei. -/
def calculateGasCost (gasEstimate : ℕ) (gasPriceGwei : ℚ) : ℚ :=
  gasPriceGwei * 10 ^ 9 * gasEstimate

/-- Itemized cost block of a profitability report. -/
structure CostsBreakdown where
  dexFeesETH : ℚ
  dexFeesUSD : ℚ
  flashloanFeeETH : ℚ
  flashloanFeeUSD : ℚ
  gasCostETH : ℚ
  gasCostUSD : ℚ
  totalCostsETH : ℚ
  totalCostsUSD : ℚ
deriving DecidableEq

/-- The report returned by `calculateArbitrageProfitability`. -/
structure ProfitabilityReport where
  amountInETH : ℚ
  amountInUSD : ℚ
  grossProfitETH : ℚ
  grossProfitUSD : ℚ
  grossProfitPercentage : ℚ
  costs : CostsBreakdown
  netProfitETH : ℚ
  netProfitUSD : ℚ
  profitMargin : ℚ
  gasPrice : ℚ
  gasEstimate : ℕ
  isProfitable : Bool
  breakEvenAmountETH : ℚ
  breakEvenAmountUSD : ℚ
  riskScore : ℕ
deriving DecidableEq

/-- `calculateRiskScore` of the profit calculator: additive 0-100 heuristic. -/
def calculateRiskScore (profitPercentage netProfitETH totalCostsETH : ℚ) : ℕ :=
  let s1 : ℕ :=
    if profitPercentage < 1 then 30
    else if profitPercentage < 2 then 20
    else if profitPercentage < 5 then 10
    else 0
  let profitToCost := |netProfitETH / totalCostsETH|
  let s2 : ℕ :=
    if profitToCost < 1 / 10 then 25
    else if profitToCost < 1 / 5 then 15
    else if profitToCost < 1 / 2 then 10
    else 0
  min (s1 + s2 + 5 + 10) 100

/-- `calculateArbitrageProfitability`: full cost/benefit breakdown of an
opportunity.  The oracle price and the current gas price, fetched inside the
source function, are explicit parameters. -/
def calculateArbitrageProfitability (opp : ArbOpportunity)
    (ethPriceUSD gasPriceGwei : ℚ) : ProfitabilityReport :=
  let amountInETH := formatEther opp.amountIn
  let sellAmountOutETH := formatEther opp.sellAmountOut
  let grossProfitETH := sellAmountOutETH - amountInETH
  let grossProfitUSD := grossProfitETH * ethPriceUSD
  let buyDexFee := calculateDexFee opp.amountIn opp.buyDex
  let sellDexFee := calculateDexFee opp.buyAmountOut opp.sellDex
  let totalDexFeesETH := buyDexFee + sellDexFee
  let totalDexFeesUSD := totalDexFeesETH * ethPriceUSD
  let flashloanFeeETH := amountInETH * AAVE_FLASHLOAN_FEE
  let flashloanFeeUSD := flashloanFeeETH * ethPriceUSD
  let gasCostWei := calculateGasCost totalGasEstimate gasPriceGwei
  let gasCostETH := formatEther gasCostWei
  let gasCostUSD := gasCostETH * ethPriceUSD
  let totalCostsETH := totalDexFeesETH + flashloanFeeETH + gasCostETH
  let totalCostsUSD := totalDexFeesUSD + flashloanFeeUSD + gasCostUSD
  let netProfitETH := grossProfitETH - totalCostsETH
  let netProfitUSD := grossProfitUSD - totalCostsUSD
  let profitMargin := netProfitETH / amountInETH * 100
  let breakEvenAmountETH := totalCostsETH / (opp.profitPercentage / 100)
  { amountInETH := amountInETH
    amountInUSD := amountInETH * ethPriceUSD
    grossProfitETH := grossProfitETH
    grossProfitUSD := grossProfitUSD
    grossProfitPercentage := opp.profitPercentage
    costs :=
      { dexFeesETH := totalDexFeesETH
        dexFeesUSD := totalDexFeesUSD
        flashloanFeeETH := flashloanFeeETH
        flashloanFeeUSD := flashloanFeeUSD
        gasCostETH := gasCostETH
        gasCostUSD := gasCostUSD
        totalCostsETH := totalCostsETH
        totalCostsUSD := totalCostsUSD }
    netProfitETH := netProfitETH
    netProfitUSD := netProfitUSD
    profitMargin := profitMargin
    gasPrice := gasPriceGwei
    gasEstimate := totalGasEstimate
    isProfitable := decide (netProfitETH > 0)
    breakEvenAmountETH := breakEvenAmountETH
    breakEvenAmountUSD := breakEvenAmountETH * ethPriceUSD
    riskScore := calculateRiskScore opp.profitPercentage netProfitETH totalCostsETH }

/-! ## PriceOracle (reference price oracle source file) -/

/-- Outcome of the aggregated feed call `latestRoundData` plus `decimals`:
either the call threw, or it returned an answer with its update time
(seconds) and decimals. -/
inductive FeedQuery where
  | failure
  | ok (answer : ℤ) (updatedAtSec : ℤ) (decimals : ℕ)
deriving DecidableEq

/-- An entry of the oracle's 30-second price cache. -/
structure OracleCacheEntry where
  price : ℚ
  timestamp : ℤ
deriving DecidableEq

/-- Cache TTL of the oracle, 30 seconds in milliseconds. -/
def oracleCacheTimeout : ℤ := 30000

/-- The static fallback price table of `getFallbackPrice`. -/
def fallbackPriceTable (symbol : String) : Option ℚ :=
  if symbol = "ETH" then some 2000
  else if symbol = "BTC" then some 35000
  else if symbol = "BNB" then some 300
  else if symbol = "MATIC" then some (4 / 5)
  else if symbol = "AVAX" then some 25
  else if symbol = "FTM" then some (3 / 10)
  else if symbol = "USDC" then some 1
  else if symbol = "USDT" then some 1
  else if symbol = "DAI" then some 1
  else if symbol = "BUSD" then some 1
  else none

/-- `getFallbackPrice`: table value, defaulting to 1.0 for unknown symbols. -/
def getFallbackPrice (symbol : String) : ℚ :=
  (fallbackPriceTable symbol).getD 1

/-- The `ethers.utils.formatUnits` conversion for a feed answer. -/
def formatUnits (answer : ℤ) (decimals : ℕ) : ℚ :=
  (answer : ℚ) / 10 ^ decimals

/-- Cache-miss path of `getPrice`: no configured feed or a failed call falls
back; a non-positive answer raises inside the `try` and is caught by the
function's own handler, which also falls back.  The staleness check
(`priceAge > 3600`) in the source only emits a warning and does not alter
the returned value, so it does not appear in the result. -/
def getPriceFresh (symbol : String) (hasFeed : Bool) (query : FeedQuery) : ℚ :=
  if hasFeed = false then getFallbackPrice symbol
  else
    match query with
    | .failure => getFallbackPrice symbol
    | .ok answer _updatedAtSec decimals =>
      if answer ≤ 0 then getFallbackPrice symbol
      else formatUnits answer decimals

/-- `PriceOracle.getPrice`: serve a fresh cache entry, otherwise query the
feed with fallback.  Total by construction: the embedding returns a price in
every case, mirroring the catch-all error handler of the source. -/
def getPrice (symbol : String) (cached : Option OracleCacheEntry)
    (hasFeed : Bool) (query : FeedQuery) (nowMs : ℤ) : ℚ :=
  match cached with
  | some c =>
    if nowMs - c.timestamp < oracleCacheTimeout then c.price
    else getPriceFresh symbol hasFeed query
  | none => getPriceFresh symbol hasFeed query

/-! ## DexPriceFetcher (venue quote provider and opportunity finder) -/

/-- Per-venue price data returned by the venue fetchers: quoted exchange
rate together with the raw output amount in wei. -/
structure PriceData where
  price : ℚ
  amountIn : ℚ
  amountOut : ℚ
deriving DecidableEq

/-- Element of the list assembled by `fetchMultiplePrices`: a venue name
with its surviving price data. -/
structure DexPriceEntry where
  dex : String
  price : PriceData
deriving DecidableEq

/-- Comparison used by the sort in `findArbitrageOpportunity`
(the numeric-ascending comparator on the quoted price). -/
def quoteLe (a b : DexPriceEntry) : Prop :=
  a.price.price ≤ b.price.price

instance : DecidableRel quoteLe := fun a b =>
  inferInstanceAs (Decidable (a.price.price ≤ b.price.price))

instance : IsTotal DexPriceEntry quoteLe :=
  ⟨fun a b => le_total a.price.price b.price.price⟩

instance : IsTrans DexPriceEntry quoteLe :=
  ⟨fun _ _ _ h h' => le_trans h h'⟩

/-- The spread percentage the finder computes on the sorted quote list:
cheapest versus most expensive venue. -/
def bestSpreadPct (quotes : List DexPriceEntry) : ℚ :=
  match List.insertionSort quoteLe quotes with
  | [] => 0
  | cheapest :: rest =>
    let mostExpensive := (cheapest :: rest).getLast (List.cons_ne_nil _ _)
    (mostExpensive.price.price - cheapest.price.price) / cheapest.price.price * 100

/-- `DexPriceFetcher.findArbitrageOpportunity`: require at least two venue
quotes, sort by price, pair the cheapest and the most expensive venue, and
emit an opportunity only if the spread percentage exceeds 0.5. -/
def findArbitrageOpportunity (quotes : List DexPriceEntry)
    (tokenA tokenB : String) (amountIn : ℚ) : Option ArbOpportunity :=
  if quotes.length < 2 then none
  else
    match List.insertionSort quoteLe quotes with
    | [] => none
    | cheapest :: rest =>
      let mostExpensive := (cheapest :: rest).getLast (List.cons_ne_nil _ _)
      let priceDifference := mostExpensive.price.price - cheapest.price.price
      let profitPercentage := priceDifference / cheapest.price.price * 100
      if profitPercentage > 1 / 2 then
        some
          { tokenA := tokenA
            tokenB := tokenB
            buyDex := cheapest.dex
            sellDex := mostExpensive.dex
            buyPrice := cheapest.price.price
            sellPrice := mostExpensive.price.price
            profitPercentage := profitPercentage
            amountIn := amountIn
            buyAmountOut := cheapest.price.amountOut
            sellAmountOut := mostExpensive.price.amountOut }
      else none

/-! ## Uniswap V3 fee-tier quoting (`fetchUniswapV3Price`) -/

/-- Outcome of one `quoteExactInputSingle` static call for a fee tier:
the call reverted, or it returned an output amount in wei. -/
inductive TierOutcome where
  | revert
  | ok (amountOut : ℕ)
deriving DecidableEq

/-- One Uniswap V3 quote as returned by `fetchUniswapV3Price`. -/
structure V3Quote where
  price : ℚ
  amountIn : ℚ
  amountOut : ℕ
  fee : ℕ
deriving DecidableEq

/-- First-occurrence deduplication, the semantics of the JavaScript
`[...new Set(list)]` spread: keeps the first occurrence of each element, in
insertion order. -/
def dedupKeepFirst (seen : List ℕ) : List ℕ → List ℕ
  | [] => []
  | t :: rest =>
    if t ∈ seen then dedupKeepFirst seen rest
    else t :: dedupKeepFirst (t :: seen) rest

/-- The fee-tier list `fetchUniswapV3Price` iterates:
`[...new Set([fee, 500, 3000, 10000])]`. -/
def feeTierOrder (fee : ℕ) : List ℕ :=
  dedupKeepFirst [] [fee, 500, 3000, 10000]

/-- The per-tier loop body of `fetchUniswapV3Price`: return the first tier
whose static quote call yields a positive output amount, silently skipping
tiers that revert; `none` when the list is exhausted. -/
def tryFeeTiers (quoteAt : ℕ → TierOutcome) (amountIn : ℚ) :
    List ℕ → Option V3Quote
  | [] => none
  | t :: rest =>
    match quoteAt t with
    | .revert => tryFeeTiers quoteAt amountIn rest
    | .ok amountOut =>
      if 0 < amountOut then
        some
          { price := formatEther (amountOut : ℚ) / formatEther amountIn
            amountIn := amountIn
            amountOut := amountOut
            fee := t }
      else tryFeeTiers quoteAt amountIn rest

/-- `DexPriceFetcher.fetchUniswapV3Price`: try the deduplicated fee tiers in
insertion order.  The source default for the `fee` parameter is 3000, and
the only in-repo caller (`fetchPrice`) relies on that default. -/
def fetchUniswapV3Price (quoteAt : ℕ → TierOutcome) (amountIn : ℚ)
    (fee : ℕ := 3000) : Option V3Quote :=
  tryFeeTiers quoteAt amountIn (feeTierOrder fee)

/-- Modelled from the claim text, not from the source: the same per-tier
loop but over the tier order the claim asserts, 500 then 3000 then 10000.
Used only to exhibit the divergence from the code. -/
def fetchUniswapV3PriceClaimOrder (quoteAt : ℕ → TierOutcome)
    (amountIn : ℚ) : Option V3Quote :=
  tryFeeTiers quoteAt amountIn [500, 3000, 10000]

/-- A fee tier counts as viable when its quote call returns a positive
output amount. -/
def positiveTier (quoteAt : ℕ → TierOutcome) (t : ℕ) : Prop :=
  ∃ a, quoteAt t = .ok a ∧ 0 < a

/-- Concrete quoting environment separating the two tier orders: the 0.05%
tier and the 0.3% tier both quote positively, the 1% tier reverts. -/
def tierEnvBoth : ℕ → TierOutcome := fun t =>
  if t = 500 then .ok 10
  else if t = 3000 then .ok 20
  else .revert

/-- Concrete quoting environment where only the 0.05% tier quotes
positively and the default 0.3% tier reverts. -/
def tierEnvOnly500 : ℕ → TierOutcome := fun t =>
  if t = 500 then .ok 7 else .revert

/-! ## RiskManager (src/src/RiskManager.js) -/

/-- Severity tag of a triggered risk factor. -/
inductive Severity where
  | low
  | medium
  | high
  | critical
deriving DecidableEq

/-- A triggered risk factor: its machine-readable name and severity. -/
structure RiskFactor where
  factor : String
  severity : Severity
deriving DecidableEq

/-- Risk configuration with the source's environment-variable defaults. -/
structure RiskConfig where
  maxPositionSizeETH : ℚ
  maxDailyLossETH : ℚ
  maxSlippagePercent : ℚ
  minProfitMargin : ℚ
  maxGasPriceGwei : ℚ
  circuitBreakerThreshold : ℕ
  cooldownPeriodMs : ℤ
  emergencyStop : Bool
deriving DecidableEq

/-- The defaults: 10 ETH position cap, 5 ETH daily loss cap, 3% slippage
cap, 0.5% margin floor, 100 gwei gas cap, 3-failure breaker threshold,
5-minute cooldown, emergency stop off. -/
def defaultRiskConfig : RiskConfig :=
  { maxPositionSizeETH := 10
    maxDailyLossETH := 5
    maxSlippagePercent := 3
    minProfitMargin := 1 / 2
    maxGasPriceGwei := 100
    circuitBreakerThreshold := 3
    cooldownPeriodMs := 300000
    emergencyStop := false }

/-- Mutable risk-tracking state of the manager: the daily stats object
together with the circuit-breaker fields. -/
structure RiskState where
  totalProfitETH : ℚ
  totalLossETH : ℚ
  netProfitETH : ℚ
  executedTrades : ℕ
  failedTrades : ℕ
  consecutiveFailures : ℕ
  circuitBreakerActive : Bool
  circuitBreakerActivatedAt : Option ℤ
deriving DecidableEq

/-- Freshly constructed (or daily-reset) risk state. -/
def initialRiskState : RiskState :=
  { totalProfitETH := 0
    totalLossETH := 0
    netProfitETH := 0
    executedTrades := 0
    failedTrades := 0
    consecutiveFailures := 0
    circuitBreakerActive := false
    circuitBreakerActivatedAt := none }

/-- The slice of a profitability report the risk assessment reads. -/
structure ProfitabilitySummary where
  profitMargin : ℚ
  amountInETH : ℚ
  netProfitETH : ℚ
deriving DecidableEq

/-- Result of `assessOpportunityRisk`. -/
structure RiskAssessment where
  riskScore : ℕ
  riskFactors : List RiskFactor
  approved : Bool
  positionSize : ℚ
  maxSlippage : ℚ
deriving DecidableEq

/-- `calculatePriceImpact`: the simplified slippage estimate,
one tenth of the spread percentage floored at 0.1%. -/
def calculatePriceImpact (profitPercentage : ℚ) : ℚ :=
  max (1 / 10) (profitPercentage * (1 / 10))

/-- `calculateFinalRiskScore`: add 20 points per critical factor, 10 per
high factor beyond the first, and cap at 100. -/
def calculateFinalRiskScore (factors : List RiskFactor) (score : ℕ) : ℕ :=
  let criticalFactors := (factors.filter fun f => f.severity = .critical).length
  let highFactors := (factors.filter fun f => f.severity = .high).length
  let s1 := score + (if criticalFactors > 0 then criticalFactors * 20 else 0)
  let s2 := s1 + (if highFactors > 1 then (highFactors - 1) * 10 else 0)
  min s2 100

/-- `makeFinalApprovalDecision`: reject on any critical factor; reject and
record a `high_risk_score` factor when the final score exceeds 70;
approve otherwise.  Returns the approval flag and the final factor list. -/
def makeFinalApprovalDecision (factors : List RiskFactor) (finalScore : ℕ) :
    Bool × List RiskFactor :=
  let criticalFactors := (factors.filter fun f => f.severity = .critical).length
  if criticalFactors > 0 then (false, factors)
  else if finalScore > 70 then
    (false, factors ++ [⟨"high_risk_score", .high⟩])
  else (true, factors)

/-- Steps 3-10 of `assessOpportunityRisk` (the part reached when neither
the emergency stop nor a cooling-down circuit breaker short-circuits):
accumulate factors and points, compute the final score, decide approval.
The current gas price is `none` when the provider query failed, in which
case the source's catch skips the gas check. -/
def assessChecks (cfg : RiskConfig) (st : RiskState)
    (p : ProfitabilitySummary) (profitPercentage : ℚ)
    (gasPriceGwei : Option ℚ) : RiskAssessment :=
  let marginFactors : List RiskFactor :=
    if p.profitMargin < cfg.minProfitMargin then [⟨"low_profit_margin", .high⟩]
    else if p.profitMargin < cfg.minProfitMargin * 2 then
      [⟨"marginal_profit", .medium⟩]
    else []
  let marginPoints : ℕ :=
    if p.profitMargin < cfg.minProfitMargin then 30
    else if p.profitMargin < cfg.minProfitMargin * 2 then 15
    else 0
  let positionFactors : List RiskFactor :=
    if p.amountInETH > cfg.maxPositionSizeETH then [⟨"position_too_large", .high⟩]
    else []
  let positionPoints : ℕ :=
    if p.amountInETH > cfg.maxPositionSizeETH then 25 else 0
  let positionSize : ℚ :=
    if p.amountInETH > cfg.maxPositionSizeETH then cfg.maxPositionSizeETH
    else p.amountInETH
  let priceImpact := calculatePriceImpact profitPercentage
  let slippageFactors : List RiskFactor :=
    if priceImpact > cfg.maxSlippagePercent then [⟨"high_slippage", .high⟩]
    else []
  let slippagePoints : ℕ :=
    if priceImpact > cfg.maxSlippagePercent then 20 else 0
  let maxSlippage : ℚ :=
    min (max (priceImpact * (3 / 2)) (1 / 2)) cfg.maxSlippagePercent
  let gasFactors : List RiskFactor :=
    match gasPriceGwei with
    | none => []
    | some g =>
      if g > cfg.maxGasPriceGwei then [⟨"high_gas_price", .medium⟩] else []
  let gasPoints : ℕ :=
    match gasPriceGwei with
    | none => 0
    | some g => if g > cfg.maxGasPriceGwei then 15 else 0
  let potentialLoss := |min p.netProfitETH 0|
  let projectedDailyLoss := st.totalLossETH + potentialLoss
  let dailyFactors : List RiskFactor :=
    if projectedDailyLoss > cfg.maxDailyLossETH then
      [⟨"daily_loss_limit", .critical⟩]
    else []
  let dailyPoints : ℕ :=
    if projectedDailyLoss > cfg.maxDailyLossETH then 40 else 0
  let marketFactors : List RiskFactor :=
    if st.consecutiveFailures ≥ cfg.circuitBreakerThreshold - 1 then
      [⟨"high_failure_rate", .high⟩]
    else []
  let marketPoints : ℕ :=
    if st.consecutiveFailures ≥ cfg.circuitBreakerThreshold - 1 then 25 else 0
  let factors := marginFactors ++ positionFactors ++ slippageFactors ++
    gasFactors ++ dailyFactors ++ marketFactors
  let accumulated := marginPoints + positionPoints + slippagePoints +
    gasPoints + dailyPoints + marketPoints
  let finalScore := calculateFinalRiskScore factors accumulated
  let decision := makeFinalApprovalDecision factors finalScore
  { riskScore := finalScore
    riskFactors := decision.2
    approved := decision.1
    positionSize := positionSize
    maxSlippage := maxSlippage }

/-- `deactivateCircuitBreaker`: close the breaker, clear its activation
timestamp and the consecutive-failure counter. -/
def deactivateCircuitBreaker (st : RiskState) : RiskState :=
  { st with
    circuitBreakerActive := false
    circuitBreakerActivatedAt := none
    consecutiveFailures := 0 }

/-- The immediate rejection object built by the emergency-stop and
circuit-breaker short-circuits: unapproved, one critical factor. -/
def rejectionAssessment (name : String) : RiskAssessment :=
  { riskScore := 0
    riskFactors := [⟨name, .critical⟩]
    approved := false
    positionSize := 0
    maxSlippage := 0 }

/-- `RiskManager.assessOpportunityRisk`: emergency stop first, then the
circuit breaker (reject during cooldown, auto-close after it), then the
scored checks.  Returns the assessment with the possibly-updated state. -/
def assessOpportunityRisk (cfg : RiskConfig) (st : RiskState) (nowMs : ℤ)
    (p : ProfitabilitySummary) (profitPercentage : ℚ)
    (gasPriceGwei : Option ℚ) : RiskAssessment × RiskState :=
  if cfg.emergencyStop then (rejectionAssessment "emergency_stop", st)
  else if st.circuitBreakerActive then
    let timeSinceActivation := nowMs - (st.circuitBreakerActivatedAt.getD 0)
    if timeSinceActivation < cfg.cooldownPeriodMs then
      (rejectionAssessment "circuit_breaker", st)
    else
      let st2 := deactivateCircuitBreaker st
      (assessChecks cfg st2 p profitPercentage gasPriceGwei, st2)
  else (assessChecks cfg st p profitPercentage gasPriceGwei, st)

/-- `RiskManager.recordTradeResult`: update daily stats, reset or increment
the consecutive-failure counter, and activate the circuit breaker when the
counter reaches the threshold. -/
def recordTradeResult (cfg : RiskConfig) (st : RiskState)
    (netProfitETH : ℚ) (success : Bool) (nowMs : ℤ) : RiskState :=
  let st1 :=
    if success then
      let stA := { st with
        executedTrades := st.executedTrades + 1
        consecutiveFailures := 0 }
      if netProfitETH > 0 then
        { stA with totalProfitETH := stA.totalProfitETH + netProfitETH }
      else
        { stA with totalLossETH := stA.totalLossETH + |netProfitETH| }
    else
      let stB := { st with
        failedTrades := st.failedTrades + 1
        consecutiveFailures := st.consecutiveFailures + 1 }
      if stB.consecutiveFailures ≥ cfg.circuitBreakerThreshold then
        { stB with
          circuitBreakerActive := true
          circuitBreakerActivatedAt := some nowMs }
      else stB
  { st1 with netProfitETH := st1.totalProfitETH - st1.totalLossETH }

/-- Final-score skeleton of the scored checks as a function of the seven
trigger flags (margin-low, margin-marginal, position, slippage, gas, daily
loss, failure-rate).  Severities: margin-low, position, slippage and
failure-rate are high; margin-marginal and gas are medium; daily loss is
critical.  Used to reason about monotonicity of the score. -/
def scoreOfFlags (mLow mMarg pos slip gasHigh daily market : Bool) : ℕ :=
  let raw :=
    (if mLow then 30 else if mMarg then 15 else 0) +
    (if pos then 25 else 0) +
    (if slip then 20 else 0) +
    (if gasHigh then 15 else 0) +
    (if daily then 40 else 0) +
    (if market then 25 else 0)
  let crit : ℕ := if daily then 1 else 0
  let high : ℕ :=
    (if mLow then 1 else 0) + (if pos then 1 else 0) +
    (if slip then 1 else 0) + (if market then 1 else 0)
  min (raw + (if crit > 0 then crit * 20 else 0) +
    (if high > 1 then (high - 1) * 10 else 0)) 100

/-! ## ArbitrageExecutor (execution orchestrator) -/

/-- Terminal result object of one `executeArbitrage` invocation. -/
structure ExecResult where
  success : Bool
  reason : String
deriving DecidableEq

/-- Mutable executor state: the single-flight flag and the timestamp of the
last submission attempt. -/
structure ExecutorState where
  isExecuting : Bool
  lastExecutionTime : ℤ
deriving DecidableEq

/-- The 30-second cooldown between executions, in milliseconds. -/
def executionCooldown : ℤ := 30000

/-- Outcomes of the external steps one `executeArbitrage` invocation
performs, supplied by the environment: revalidation, balance check,
parameter preparation, whether a settlement transaction was actually sent,
the flashloan step's result, and an optional unexpected exception message
caught by the outer handler. -/
structure ExecEnv where
  validOk : Bool
  balanceOk : Bool
  paramsOk : Bool
  flashloanSubmitted : Bool
  flashloanResult : ExecResult
  thrownMsg : Option String
deriving DecidableEq

/-- What one invocation produces: its result, the executor state at return,
and the timestamps of settlement-contract submissions it made. -/
structure ExecOutcome where
  result : ExecResult
  state : ExecutorState
  submissions : List ℤ
deriving DecidableEq

/-- `ArbitrageExecutor.executeArbitrage` as one atomic run: the in-progress
guard, the cooldown guard, then the guarded body whose `finally` always
clears the single-flight flag. -/
def executeArbitrage (st : ExecutorState) (nowMs : ℤ) (env : ExecEnv) :
    ExecOutcome :=
  if st.isExecuting then
    { result := ⟨false, "Execution in progress"⟩, state := st, submissions := [] }
  else if nowMs - st.lastExecutionTime < executionCooldown then
    { result := ⟨false, "Cooldown active"⟩, state := st, submissions := [] }
  else
    let started : ExecutorState := { isExecuting := true, lastExecutionTime := nowMs }
    let finish : ExecResult → List ℤ → ExecOutcome := fun r subs =>
      { result := r
        state := { started with isExecuting := false }
        submissions := subs }
    match env.thrownMsg with
    | some m => finish ⟨false, m⟩ []
    | none =>
      if env.validOk = false then finish ⟨false, "Opportunity no longer valid"⟩ []
      else if env.balanceOk = false then finish ⟨false, "Insufficient ETH for gas"⟩ []
      else if env.paramsOk = false then
        finish ⟨false, "Failed to prepare arbitrage parameters"⟩ []
      else finish env.flashloanResult (if env.flashloanSubmitted then [nowMs] else [])

/-! ### Cooperative-interleaving model of the single-flight discipline

JavaScript executes each invocation run-to-completion between `await`
points.  The guard, the cooldown check and the setting of `isExecuting`
contain no `await`, so they form one atomic step; each subsequent awaited
step of the body is a separate step.  Several concurrent invocations are
tasks, each in a phase; a scheduler interleaves one task step at a time. -/

/-- Awaited stages of the `executeArbitrage` body. -/
inductive BodyStage where
  | validating
  | checkingBalance
  | preparing
  | submitting
deriving DecidableEq

/-- Phase of one invocation task. -/
inductive TaskPhase where
  | idle
  | running (stage : BodyStage)
  | finished (r : ExecResult)
deriving DecidableEq

/-- Whether a task currently holds the single-flight critical region. -/
def TaskPhase.isRunning : TaskPhase → Bool
  | .running _ => true
  | _ => false

/-- One task's transition together with its effect on the shared
`isExecuting` flag.  Entry steps mirror the synchronous prefix of
`executeArbitrage`; exit steps mirror every return path of the body, all of
which clear the flag in the source's `finally`. -/
inductive TaskStep : Bool → TaskPhase → Bool → TaskPhase → Prop where
  | rejectBusy :
      TaskStep true .idle true (.finished ⟨false, "Execution in progress"⟩)
  | rejectCooldown :
      TaskStep false .idle false (.finished ⟨false, "Cooldown active"⟩)
  | enter :
      TaskStep false .idle true (.running .validating)
  | validateOk {f : Bool} :
      TaskStep f (.running .validating) f (.running .checkingBalance)
  | validateFail {f : Bool} :
      TaskStep f (.running .validating) false
        (.finished ⟨false, "Opportunity no longer valid"⟩)
  | balanceOk {f : Bool} :
      TaskStep f (.running .checkingBalance) f (.running .preparing)
  | balanceFail {f : Bool} :
      TaskStep f (.running .checkingBalance) false
        (.finished ⟨false, "Insufficient ETH for gas"⟩)
  | prepareOk {f : Bool} :
      TaskStep f (.running .preparing) f (.running .submitting)
  | prepareFail {f : Bool} :
      TaskStep f (.running .preparing) false
        (.finished ⟨false, "Failed to prepare arbitrage parameters"⟩)
  | submitFinish {f : Bool} (r : ExecResult) :
      TaskStep f (.running .submitting) false (.finished r)
  | bodyThrow {f : Bool} (stage : BodyStage) (m : String) :
      TaskStep f (.running stage) false (.finished ⟨false, m⟩)

/-- One scheduler step: some task in the list takes a `TaskStep`. -/
inductive TasksStep : Bool → List TaskPhase → Bool → List TaskPhase → Prop where
  | here {f f' : Bool} {p p' : TaskPhase} {rest : List TaskPhase} :
      TaskStep f p f' p' → TasksStep f (p :: rest) f' (p' :: rest)
  | there {f f' : Bool} {p : TaskPhase} {rest rest' : List TaskPhase} :
      TasksStep f rest f' rest' → TasksStep f (p :: rest) f' (p :: rest')

/-- Whole-system state for the interleaving model. -/
structure ExecSystem where
  isExecuting : Bool
  tasks : List TaskPhase
deriving DecidableEq

/-- One step of the whole system. -/
def ExecSysStep (s s' : ExecSystem) : Prop :=
  TasksStep s.isExecuting s.tasks s'.isExecuting s'.tasks

/-- Initial system: flag clear, `n` pending invocations. -/
def initExecSystem (n : ℕ) : ExecSystem :=
  { isExecuting := false, tasks := List.replicate n .idle }

/-- Reachability from the initial system under scheduler steps. -/
def ExecReachable (n : ℕ) (s : ExecSystem) : Prop :=
  Relation.ReflTransGen ExecSysStep (initExecSystem n) s

/-- Number of tasks currently inside the critical region. -/
def runningCount (ts : List TaskPhase) : ℕ :=
  ts.countP TaskPhase.isRunning

/-! ### Concrete instances used by witness theorems -/

/-- Two concrete venue quotes at prices 2000 and 2050 (the spec's worked
scenario: spread 2.5%). -/
def demoQuoteA : DexPriceEntry :=
  { dex := "UniswapV2", price := { price := 2000, amountIn := 1, amountOut := 2000 } }

/-- The more expensive demo venue quote. -/
def demoQuoteB : DexPriceEntry :=
  { dex := "Sushiswap", price := { price := 2050, amountIn := 1, amountOut := 2050 } }

/-- The opportunity the finder emits for the two demo quotes. -/
def demoOpportunity : ArbOpportunity :=
  { tokenA := "WETH"
    tokenB := "USDC"
    buyDex := "UniswapV2"
    sellDex := "Sushiswap"
    buyPrice := 2000
    sellPrice := 2050
    profitPercentage := 5 / 2
    amountIn := 1
    buyAmountOut := 2000
    sellAmountOut := 2050 }

/-- A risk state two failures deep, breaker still closed. -/
def closedRiskState2 : RiskState :=
  { initialRiskState with consecutiveFailures := 2 }

/-- A risk state whose breaker opened at time 0. -/
def openRiskState : RiskState :=
  { initialRiskState with
    circuitBreakerActive := true
    circuitBreakerActivatedAt := some 0 }

/-- A small healthy profitability summary used by concrete assessments. -/
def demoProfitSummary : ProfitabilitySummary :=
  { profitMargin := 2, amountInETH := 1, netProfitETH := 1 / 100 }

/-- Environment where every external step of an execution succeeds. -/
def demoExecEnv : ExecEnv :=
  { validOk := true
    balanceOk := true
    paramsOk := true
    flashloanSubmitted := true
    flashloanResult := ⟨true, ""⟩
    thrownMsg := none }

/-- System state reached from two pending invocations after the first
enters the critical region and the second is rejected by the busy guard. -/
def demoExecSystem : ExecSystem :=
  { isExecuting := true
    tasks := [.running .validating,
      .finished ⟨false, "Execution in progress"⟩] }

/-- Environment whose flashloan step fails after submission. -/
def demoFailEnv : ExecEnv :=
  { validOk := true
    balanceOk := true
    paramsOk := true
    flashloanSubmitted := true
    flashloanResult := ⟨false, "Transaction failed"⟩
    thrownMsg := none }

/-! ## Theorems -/

/-- C1: every report produced by `calculateArbitrageProfitability` satisfies
`netProfitETH = grossProfitETH - (dexFeesETH + flashloanFeeETH + gasCostETH)`
(exactly, hence within any floating tolerance), `isProfitable` holds exactly
when `netProfitETH > 0`, and
`profitMargin = netProfitETH / amountInETH * 100`. -/
theorem profitability_report_consistent (opp : ArbOpportunity)
    (ethPriceUSD gasPriceGwei : ℚ) :
    let r := calculateArbitrageProfitability opp ethPriceUSD gasPriceGwei
    r.netProfitETH =
        r.grossProfitETH -
          (r.costs.dexFeesETH + r.costs.flashloanFeeETH + r.costs.gasCostETH) ∧
      (r.isProfitable = true ↔ r.netProfitETH > 0) ∧
      r.profitMargin = r.netProfitETH / r.amountInETH * 100 := by
  refine ⟨rfl, ?_, rfl⟩
  simp [calculateArbitrageProfitability]

/-- Every entry of the static fallback table, including the 1.0 default for
unknown symbols, is strictly positive. -/
theorem getFallbackPrice_pos (symbol : String) : 0 < getFallbackPrice symbol := by
  unfold getFallbackPrice fallbackPriceTable
  split_ifs <;> norm_num

/-- C6: whenever `getPrice` actually consults the feed (no fresh cache
entry) and the consultation fails — the call threw, the answer was
non-positive, or no feed is configured for the symbol — the function
returns the static fallback value, which is finite (a rational) and
strictly positive; the embedding is total, so no path throws. -/
theorem getPrice_fallback_safety (symbol : String)
    (cached : Option OracleCacheEntry) (hasFeed : Bool) (query : FeedQuery)
    (nowMs : ℤ)
    (hmiss : ∀ c, cached = some c → oracleCacheTimeout ≤ nowMs - c.timestamp)
    (hfail : hasFeed = false ∨ query = .failure ∨
      ∃ a u d, query = .ok a u d ∧ a ≤ 0) :
    getPrice symbol cached hasFeed query nowMs = getFallbackPrice symbol ∧
      0 < getPrice symbol cached hasFeed query nowMs := by
  have hfresh : getPriceFresh symbol hasFeed query = getFallbackPrice symbol := by
    rcases hfail with h | h | ⟨a, u, d, hq, ha⟩
    · simp [getPriceFresh, h]
    · subst h; cases hasFeed <;> simp [getPriceFresh]
    · subst hq; cases hasFeed <;> simp [getPriceFresh, ha]
  have hmain : getPrice symbol cached hasFeed query nowMs = getFallbackPrice symbol := by
    cases cached with
    | none => simpa [getPrice] using hfresh
    | some c =>
      have hge := hmiss c rfl
      simp only [getPrice]
      rw [if_neg (not_lt.mpr hge), hfresh]
  exact ⟨hmain, hmain ▸ getFallbackPrice_pos symbol⟩

/-- Witness for C6 at a concrete input: unknown symbol, no configured feed,
failing query. -/
theorem getPrice_fallback_safety_witness :
    getPrice "XYZ" none false .failure 0 = getFallbackPrice "XYZ" ∧
      0 < getPrice "XYZ" none false .failure 0 :=
  getPrice_fallback_safety "XYZ" none false .failure 0
    (fun _ h => Option.noConfusion h) (Or.inl rfl)

/-- C8 counterexample: a positive feed answer that is two hours old (age
7200 s > 3600 s, so stale per the claim) still yields the feed-derived
price 1234, not the fallback value 2000 — `getPrice` only logs a warning
on staleness. -/
theorem getPrice_stale_counterexample :
    ((7200000 : ℤ) / 1000 - 0 > 3600) ∧
      getPrice "ETH" none true (.ok 123400000000 0 8) 7200000 = 1234 ∧
      getFallbackPrice "ETH" = 2000 ∧
      getPrice "ETH" none true (.ok 123400000000 0 8) 7200000 ≠
        getFallbackPrice "ETH" := by
  refine ⟨by norm_num, ?_, by norm_num [getFallbackPrice, fallbackPriceTable], ?_⟩ <;>
    norm_num [getPrice, getPriceFresh, formatUnits, getFallbackPrice,
      fallbackPriceTable]

/-- C8 amended: when the feed query succeeds with a positive answer,
`getPrice` returns the feed-derived price even if the data is stale
(updated more than one hour ago); staleness is only flagged in a log
warning, and the fallback table is used solely for thrown queries,
non-positive answers, or missing feeds. -/
theorem getPrice_returns_stale_feed_value (symbol : String) (a u : ℤ)
    (d : ℕ) (cached : Option OracleCacheEntry) (nowMs : ℤ)
    (hmiss : ∀ c, cached = some c → oracleCacheTimeout ≤ nowMs - c.timestamp)
    (hpos : 0 < a) (hstale : nowMs / 1000 - u > 3600) :
    getPrice symbol cached true (.ok a u d) nowMs = formatUnits a d := by
  have hfresh : getPriceFresh symbol true (.ok a u d) = formatUnits a d := by
    simp [getPriceFresh, not_le.mpr hpos]
  cases cached with
  | none => simpa [getPrice] using hfresh
  | some c =>
    have hge := hmiss c rfl
    simp only [getPrice]
    rw [if_neg (not_lt.mpr hge), hfresh]

/-- Witness for the amended C8 statement at the concrete stale input. -/
theorem getPrice_returns_stale_feed_value_witness :
    getPrice "ETH" none true (.ok 123400000000 0 8) 7200000 =
      formatUnits 123400000000 8 :=
  getPrice_returns_stale_feed_value "ETH" 123400000000 0 8 none 7200000
    (fun _ h => Option.noConfusion h) (by norm_num) (by norm_num)

/-- In a list sorted by quoted price, the head quote's price is at most the
last quote's price. -/
theorem sorted_head_le_getLast (c : DexPriceEntry) (rest : List DexPriceEntry)
    (hsorted : List.Sorted quoteLe (c :: rest)) :
    quoteLe c ((c :: rest).getLast (List.cons_ne_nil c rest)) := by
  have hmem := List.getLast_mem (List.cons_ne_nil c rest)
  rcases List.mem_cons.mp hmem with heq | hmem'
  · rw [heq]
    exact le_refl c.price.price
  · exact List.rel_of_sorted_cons hsorted _ hmem'

/-- C2: any opportunity emitted by `findArbitrageOpportunity` has a strictly
higher sell price than buy price and a spread percentage above the 0.5
minimum; with fewer than two surviving venue quotes, or with the
cheapest-to-most-expensive spread at or below 0.5, the finder returns
`none`. -/
theorem findArbitrage_spread_invariant (quotes : List DexPriceEntry)
    (tokenA tokenB : String) (amountIn : ℚ) :
    (∀ opp, findArbitrageOpportunity quotes tokenA tokenB amountIn = some opp →
        opp.buyPrice < opp.sellPrice ∧ opp.profitPercentage > 1 / 2) ∧
      (quotes.length < 2 →
        findArbitrageOpportunity quotes tokenA tokenB amountIn = none) ∧
      (bestSpreadPct quotes ≤ 1 / 2 →
        findArbitrageOpportunity quotes tokenA tokenB amountIn = none) := by
  by_cases hlen : quotes.length < 2
  · refine ⟨?_, fun _ => ?_, fun _ => ?_⟩ <;>
      simp [findArbitrageOpportunity, hlen]
  · have hsorted := List.sorted_insertionSort quoteLe quotes
    rcases hs : List.insertionSort quoteLe quotes with _ | ⟨c, rest⟩
    · exfalso
      have := List.length_insertionSort quoteLe quotes
      rw [hs] at this
      simp at this
      omega
    · rw [hs] at hsorted
      have hle := sorted_head_le_getLast c rest hsorted
      set m := (c :: rest).getLast (List.cons_ne_nil c rest) with hm
      have hunf : findArbitrageOpportunity quotes tokenA tokenB amountIn =
          (if (m.price.price - c.price.price) / c.price.price * 100 > 1 / 2 then
            some
              { tokenA := tokenA
                tokenB := tokenB
                buyDex := c.dex
                sellDex := m.dex
                buyPrice := c.price.price
                sellPrice := m.price.price
                profitPercentage :=
                  (m.price.price - c.price.price) / c.price.price * 100
                amountIn := amountIn
                buyAmountOut := c.price.amountOut
                sellAmountOut := m.price.amountOut }
          else none) := by
        rw [findArbitrageOpportunity, if_neg hlen, hs]
      have hspread : bestSpreadPct quotes =
          (m.price.price - c.price.price) / c.price.price * 100 := by
        rw [bestSpreadPct, hs]
      refine ⟨?_, fun h => absurd h hlen, ?_⟩
      · intro opp hopp
        rw [hunf] at hopp
        by_cases hpct : (m.price.price - c.price.price) / c.price.price * 100 > 1 / 2
        · rw [if_pos hpct] at hopp
          obtain rfl := Option.some.inj hopp
          refine ⟨?_, hpct⟩
          rcases eq_or_lt_of_le hle with heq | hlt
          · exfalso
            rw [← heq, sub_self, zero_div, zero_mul] at hpct
            norm_num at hpct
          · exact hlt
        · rw [if_neg hpct] at hopp
          exact Option.noConfusion hopp
      · intro hsp
        rw [hspread] at hsp
        rw [hunf, if_neg (not_lt.mpr hsp)]

/-- Witness for C2: on the concrete two-venue scenario the finder emits the
demo opportunity, and the claimed invariant holds for it. -/
theorem findArbitrage_spread_witness :
    findArbitrageOpportunity [demoQuoteA, demoQuoteB] "WETH" "USDC" 1 =
        some demoOpportunity ∧
      demoOpportunity.buyPrice < demoOpportunity.sellPrice ∧
      demoOpportunity.profitPercentage > 1 / 2 := by
  have hres : findArbitrageOpportunity [demoQuoteA, demoQuoteB] "WETH" "USDC" 1 =
      some demoOpportunity := by
    norm_num [findArbitrageOpportunity, List.insertionSort, List.orderedInsert,
      quoteLe, demoQuoteA, demoQuoteB, demoOpportunity]
  exact ⟨hres,
    (findArbitrage_spread_invariant [demoQuoteA, demoQuoteB] "WETH" "USDC" 1).1
      demoOpportunity hres⟩

/-- When the fee-tier loop exhausts its list, no tier in it was viable. -/
theorem tryFeeTiers_eq_none (quoteAt : ℕ → TierOutcome) (amountIn : ℚ) :
    ∀ l : List ℕ, tryFeeTiers quoteAt amountIn l = none →
      ∀ t ∈ l, ¬ positiveTier quoteAt t := by
  intro l
  induction l with
  | nil => intro _ t ht; exact absurd ht (List.not_mem_nil t)
  | cons t rest ih =>
    intro h t' ht'
    rcases List.mem_cons.mp ht' with rfl | hmem
    · intro ⟨a, ha, hpos⟩
      simp only [tryFeeTiers, ha] at h
      rw [if_pos hpos] at h
      exact Option.noConfusion h
    · rcases hq : quoteAt t with _ | a
      · simp only [tryFeeTiers, hq] at h
        exact ih h t' hmem
      · by_cases hpos : 0 < a
        · simp only [tryFeeTiers, hq] at h
          rw [if_pos hpos] at h
          exact Option.noConfusion h
        · simp only [tryFeeTiers, hq] at h
          rw [if_neg hpos] at h
          exact ih h t' hmem

/-- When the fee-tier loop returns a quote, that quote comes from the first
viable tier: the list splits into a viable-free prefix followed by the
returned tier, whose call produced the quote's positive output amount. -/
theorem tryFeeTiers_eq_some (quoteAt : ℕ → TierOutcome) (amountIn : ℚ) :
    ∀ (l : List ℕ) (q : V3Quote), tryFeeTiers quoteAt amountIn l = some q →
      ∃ pre suf, l = pre ++ q.fee :: suf ∧
        (∀ t ∈ pre, ¬ positiveTier quoteAt t) ∧
        quoteAt q.fee = .ok q.amountOut ∧ 0 < q.amountOut := by
  intro l
  induction l with
  | nil => intro q h; exact Option.noConfusion h
  | cons t rest ih =>
    intro q h
    rcases hq : quoteAt t with _ | a
    · simp only [tryFeeTiers, hq] at h
      obtain ⟨pre, suf, hsplit, hpre, hok, hpos⟩ := ih q h
      refine ⟨t :: pre, suf, by rw [hsplit]; rfl, ?_, hok, hpos⟩
      intro t' ht'
      rcases List.mem_cons.mp ht' with rfl | hmem
      · intro ⟨a', ha', _⟩
        rw [hq] at ha'
        exact TierOutcome.noConfusion ha'
      · exact hpre t' hmem
    · by_cases hpos : 0 < a
      · simp only [tryFeeTiers, hq] at h
        rw [if_pos hpos] at h
        obtain rfl := Option.some.inj h
        exact ⟨[], rest, rfl, fun t' ht' => absurd ht' (List.not_mem_nil t'),
          hq, hpos⟩
      · simp only [tryFeeTiers, hq] at h
        rw [if_neg hpos] at h
        obtain ⟨pre, suf, hsplit, hpre, hok, hposq⟩ := ih q h
        refine ⟨t :: pre, suf, by rw [hsplit]; rfl, ?_, hok, hposq⟩
        intro t' ht'
        rcases List.mem_cons.mp ht' with rfl | hmem
        · intro ⟨a', ha', hpos'⟩
          rw [hq] at ha'
          obtain rfl := (TierOutcome.ok.inj ha').symm
          exact hpos hpos'
        · exact hpre t' hmem

/-- C9 counterexample: with the default fee argument 3000 and an
environment where both the 0.05% tier and the 0.3% tier quote positively,
the source returns the 0.3% tier's quote (fee 3000, output 20) because its
tier order is 3000, 500, 10000 — whereas the claimed order 500, 3000,
10000 would return the 0.05% tier's quote (fee 500, output 10). -/
theorem fetchUniswapV3Price_tier_order_counterexample :
    fetchUniswapV3Price tierEnvBoth 1 =
        some { price := formatEther 20 / formatEther 1, amountIn := 1,
               amountOut := 20, fee := 3000 } ∧
      fetchUniswapV3PriceClaimOrder tierEnvBoth 1 =
        some { price := formatEther 10 / formatEther 1, amountIn := 1,
               amountOut := 10, fee := 500 } ∧
      fetchUniswapV3Price tierEnvBoth 1 ≠
        fetchUniswapV3PriceClaimOrder tierEnvBoth 1 := by
  refine ⟨rfl, rfl, ?_⟩
  intro h
  have := (Option.some.inj h)
  have hfee := congrArg V3Quote.fee this
  norm_num at hfee

/-- C9 amended: `fetchUniswapV3Price` tries the deduplicated tier list
`[fee, 500, 3000, 10000]` in first-occurrence order — for the default fee
3000 (used by every in-repo caller) that order is 3000, 500, 10000 — and
returns the quote of the first tier with a positive output amount,
silently skipping tiers that revert; it returns `none` exactly when no
tier in the list is viable. -/
theorem fetchUniswapV3Price_first_viable_tier (quoteAt : ℕ → TierOutcome)
    (amountIn : ℚ) (fee : ℕ) :
    feeTierOrder 3000 = [3000, 500, 10000] ∧
      (∀ q, fetchUniswapV3Price quoteAt amountIn fee = some q →
        ∃ pre suf, feeTierOrder fee = pre ++ q.fee :: suf ∧
          (∀ t ∈ pre, ¬ positiveTier quoteAt t) ∧
          quoteAt q.fee = .ok q.amountOut ∧ 0 < q.amountOut) ∧
      (fetchUniswapV3Price quoteAt amountIn fee = none →
        ∀ t ∈ feeTierOrder fee, ¬ positiveTier quoteAt t) := by
  refine ⟨rfl, ?_, ?_⟩
  · intro q h
    exact tryFeeTiers_eq_some quoteAt amountIn (feeTierOrder fee) q h
  · intro h
    exact tryFeeTiers_eq_none quoteAt amountIn (feeTierOrder fee) h

/-- Witness for the amended C9 statement: in an environment where the
default 0.3% tier reverts and only the 0.05% tier quotes positively, the
returned quote is the 500 tier and the characterization applies to it. -/
theorem fetchUniswapV3Price_first_viable_tier_witness :
    ∃ pre suf, feeTierOrder 3000 = pre ++ 500 :: suf ∧
      (∀ t ∈ pre, ¬ positiveTier tierEnvOnly500 t) ∧
      tierEnvOnly500 500 = .ok 7 ∧ (0 : ℕ) < 7 := by
  have h := (fetchUniswapV3Price_first_viable_tier tierEnvOnly500 1 3000).2.1
    { price := formatEther 7 / formatEther 1, amountIn := 1, amountOut := 7,
      fee := 500 } rfl
  exact h

/-- The score-then-decide tail of the assessment: the decision approves
exactly when the final factor list has no critical entry and the final
(penalty-adjusted, capped) score is at most 70. -/
theorem decision_approved_iff (factors : List RiskFactor) (score : ℕ) :
    (makeFinalApprovalDecision factors
        (calculateFinalRiskScore factors score)).1 = true ↔
      ((∀ f ∈ (makeFinalApprovalDecision factors
            (calculateFinalRiskScore factors score)).2,
          f.severity ≠ Severity.critical) ∧
        calculateFinalRiskScore factors score ≤ 70) := by
  have hchar :
      ((factors.filter fun f => f.severity = Severity.critical).length = 0) ↔
        ∀ f ∈ factors, f.severity ≠ Severity.critical := by
    rw [List.length_eq_zero, List.filter_eq_nil_iff]
    simp
  unfold makeFinalApprovalDecision
  by_cases hcrit :
      (factors.filter fun f => f.severity = Severity.critical).length > 0
  · rw [if_pos hcrit]
    simp only [Bool.false_eq_true, false_iff, not_and]
    intro hno
    exact absurd (hchar.mpr hno) (by omega)
  · rw [if_neg hcrit]
    have hall := hchar.mp (by omega)
    by_cases hscore : calculateFinalRiskScore factors score > 70
    · rw [if_pos hscore]
      simp only [Bool.false_eq_true, false_iff, not_and]
      intro _
      omega
    · rw [if_neg hscore]
      simp only [true_iff]
      exact ⟨hall, by omega⟩

/-- The scored-checks pipeline inherits the decision characterization. -/
theorem assessChecks_approved_iff (cfg : RiskConfig) (st : RiskState)
    (p : ProfitabilitySummary) (pct : ℚ) (gas : Option ℚ) :
    (assessChecks cfg st p pct gas).approved = true ↔
      ((∀ f ∈ (assessChecks cfg st p pct gas).riskFactors,
          f.severity ≠ Severity.critical) ∧
        (assessChecks cfg st p pct gas).riskScore ≤ 70) :=
  decision_approved_iff _ _

/-- C3: an assessment produced by `assessOpportunityRisk` is approved
exactly when its triggered factor list contains no critical-severity factor
and its final (penalty-adjusted, capped-at-100) risk score is at most 70;
in particular any critical factor forces rejection regardless of score. -/
theorem risk_assessment_approval (cfg : RiskConfig) (st : RiskState)
    (nowMs : ℤ) (p : ProfitabilitySummary) (pct : ℚ) (gas : Option ℚ) :
    (assessOpportunityRisk cfg st nowMs p pct gas).1.approved = true ↔
      ((∀ f ∈ (assessOpportunityRisk cfg st nowMs p pct gas).1.riskFactors,
          f.severity ≠ Severity.critical) ∧
        (assessOpportunityRisk cfg st nowMs p pct gas).1.riskScore ≤ 70) := by
  simp only [assessOpportunityRisk]
  split_ifs with h1 h2 h3
  · simp [rejectionAssessment]
  · simp [rejectionAssessment]
  · exact assessChecks_approved_iff _ _ _ _ _
  · exact assessChecks_approved_iff _ _ _ _ _

/-- Witness for C3: a concrete healthy assessment is approved, and the
characterization instantiates to it — no critical factor and score at most
70. -/
theorem risk_assessment_approval_witness :
    (assessOpportunityRisk defaultRiskConfig initialRiskState 0
        demoProfitSummary 2 (some 30)).1.approved = true ∧
      ((∀ f ∈ (assessOpportunityRisk defaultRiskConfig initialRiskState 0
            demoProfitSummary 2 (some 30)).1.riskFactors,
          f.severity ≠ Severity.critical) ∧
        (assessOpportunityRisk defaultRiskConfig initialRiskState 0
          demoProfitSummary 2 (some 30)).1.riskScore ≤ 70) := by
  have happ : (assessOpportunityRisk defaultRiskConfig initialRiskState 0
      demoProfitSummary 2 (some 30)).1.approved = true := by
    norm_num [assessOpportunityRisk, assessChecks, defaultRiskConfig,
      initialRiskState, demoProfitSummary, calculatePriceImpact,
      calculateFinalRiskScore, makeFinalApprovalDecision]
  exact ⟨happ,
    (risk_assessment_approval defaultRiskConfig initialRiskState 0
      demoProfitSummary 2 (some 30)).mp happ⟩

/-- C4: the circuit-breaker life cycle.  First, from a closed breaker,
`recordTradeResult` opens it exactly when it records a failure that brings
the consecutive-failure counter to the threshold.  Second, while open and
within the cooldown, an assessment returns the critical circuit-breaker
rejection and leaves the state — in particular the activation timestamp —
untouched.  Third, the first assessment at or after cooldown expiry closes
the breaker and clears the consecutive-failure counter before continuing
with the scored checks. -/
theorem circuit_breaker_protocol :
    (∀ (cfg : RiskConfig) (st : RiskState) (netProfitETH : ℚ)
        (success : Bool) (nowMs : ℤ),
        st.circuitBreakerActive = false →
        ((recordTradeResult cfg st netProfitETH success nowMs).circuitBreakerActive
            = true ↔
          (success = false ∧
            cfg.circuitBreakerThreshold ≤ st.consecutiveFailures + 1))) ∧
      (∀ (cfg : RiskConfig) (st : RiskState) (nowMs : ℤ)
          (p : ProfitabilitySummary) (pct : ℚ) (gas : Option ℚ) (t : ℤ),
          cfg.emergencyStop = false →
          st.circuitBreakerActive = true →
          st.circuitBreakerActivatedAt = some t →
          nowMs - t < cfg.cooldownPeriodMs →
          (assessOpportunityRisk cfg st nowMs p pct gas).1 =
              rejectionAssessment "circuit_breaker" ∧
            (⟨"circuit_breaker", Severity.critical⟩ : RiskFactor) ∈
              (assessOpportunityRisk cfg st nowMs p pct gas).1.riskFactors ∧
            (assessOpportunityRisk cfg st nowMs p pct gas).2 = st) ∧
      (∀ (cfg : RiskConfig) (st : RiskState) (nowMs : ℤ)
          (p : ProfitabilitySummary) (pct : ℚ) (gas : Option ℚ) (t : ℤ),
          cfg.emergencyStop = false →
          st.circuitBreakerActive = true →
          st.circuitBreakerActivatedAt = some t →
          cfg.cooldownPeriodMs ≤ nowMs - t →
          (assessOpportunityRisk cfg st nowMs p pct gas).2.circuitBreakerActive
              = false ∧
            (assessOpportunityRisk cfg st nowMs p pct gas).2.consecutiveFailures
              = 0) := by
  refine ⟨?_, ?_, ?_⟩
  · intro cfg st netProfitETH success nowMs hclosed
    cases success with
    | true =>
      simp only [recordTradeResult]
      rw [if_pos trivial]
      split_ifs <;> simp [hclosed]
    | false =>
      simp only [recordTradeResult]
      rw [if_neg (fun h : false = true => Bool.noConfusion h)]
      split_ifs with hth
      · simp only [ge_iff_le] at hth
        simp [hth]
      · simp only [ge_iff_le] at hth
        simp [hclosed, hth]
  · intro cfg st nowMs p pct gas t hem hact hat hlt
    have hunf : assessOpportunityRisk cfg st nowMs p pct gas =
        (rejectionAssessment "circuit_breaker", st) := by
      simp only [assessOpportunityRisk, hem, hact, hat]
      simp [hlt]
    rw [hunf]
    exact ⟨rfl, by simp [rejectionAssessment], rfl⟩
  · intro cfg st nowMs p pct gas t hem hact hat hge
    have hunf : (assessOpportunityRisk cfg st nowMs p pct gas).2 =
        deactivateCircuitBreaker st := by
      simp only [assessOpportunityRisk, hem, hact, hat]
      simp [not_lt.mpr hge]
    rw [hunf]
    exact ⟨rfl, rfl⟩

/-- Witness for C4: a third consecutive failure opens the breaker; an
assessment one second later is the circuit-breaker rejection with the state
untouched; an assessment after the five-minute cooldown closes the breaker
and clears the counter. -/
theorem circuit_breaker_protocol_witness :
    (recordTradeResult defaultRiskConfig closedRiskState2 0 false 5).circuitBreakerActive
        = true ∧
      (assessOpportunityRisk defaultRiskConfig openRiskState 1000
          demoProfitSummary 2 (some 30)).1 =
        rejectionAssessment "circuit_breaker" ∧
      (assessOpportunityRisk defaultRiskConfig openRiskState 1000
          demoProfitSummary 2 (some 30)).2 = openRiskState ∧
      (assessOpportunityRisk defaultRiskConfig openRiskState 400000
          demoProfitSummary 2 (some 30)).2.circuitBreakerActive = false ∧
      (assessOpportunityRisk defaultRiskConfig openRiskState 400000
          demoProfitSummary 2 (some 30)).2.consecutiveFailures = 0 := by
  have h1 := (circuit_breaker_protocol.1 defaultRiskConfig closedRiskState2 0
    false 5 rfl).mpr ⟨rfl, by decide⟩
  have h2 := circuit_breaker_protocol.2.1 defaultRiskConfig openRiskState 1000
    demoProfitSummary 2 (some 30) 0 rfl rfl rfl (by decide)
  have h3 := circuit_breaker_protocol.2.2 defaultRiskConfig openRiskState 400000
    demoProfitSummary 2 (some 30) 0 rfl rfl rfl (by decide)
  exact ⟨h1, h2.1, h2.2.2, h3.1, h3.2⟩

set_option maxHeartbeats 1600000 in
/-- The riskScore of the scored checks equals the flag skeleton applied to
the seven decidable trigger conditions. -/
theorem assessChecks_riskScore_eq (cfg : RiskConfig) (st : RiskState)
    (p : ProfitabilitySummary) (pct : ℚ) (gas : Option ℚ) :
    (assessChecks cfg st p pct gas).riskScore =
      scoreOfFlags
        (decide (p.profitMargin < cfg.minProfitMargin))
        (decide (p.profitMargin < cfg.minProfitMargin * 2))
        (decide (p.amountInETH > cfg.maxPositionSizeETH))
        (decide (calculatePriceImpact pct > cfg.maxSlippagePercent))
        (gas.elim false fun g => decide (g > cfg.maxGasPriceGwei))
        (decide (st.totalLossETH + |min p.netProfitETH 0| > cfg.maxDailyLossETH))
        (decide (st.consecutiveFailures ≥ cfg.circuitBreakerThreshold - 1)) := by
  cases gas with
  | none =>
    simp only [assessChecks, Option.elim]
    split_ifs <;> simp [calculateFinalRiskScore, scoreOfFlags, *]
  | some g =>
    simp only [assessChecks, Option.elim]
    split_ifs <;> simp [calculateFinalRiskScore, scoreOfFlags, *]

/-- Flag-skeleton monotonicity in the position flag. -/
theorem scoreOfFlags_mono_pos :
    ∀ mLow mMarg slip gasHigh daily market : Bool,
      scoreOfFlags mLow mMarg false slip gasHigh daily market ≤
        scoreOfFlags mLow mMarg true slip gasHigh daily market := by decide

/-- Flag-skeleton monotonicity in the slippage flag. -/
theorem scoreOfFlags_mono_slip :
    ∀ mLow mMarg pos gasHigh daily market : Bool,
      scoreOfFlags mLow mMarg pos false gasHigh daily market ≤
        scoreOfFlags mLow mMarg pos true gasHigh daily market := by decide

/-- Flag-skeleton monotonicity in the gas flag. -/
theorem scoreOfFlags_mono_gas :
    ∀ mLow mMarg pos slip daily market : Bool,
      scoreOfFlags mLow mMarg pos slip false daily market ≤
        scoreOfFlags mLow mMarg pos slip true daily market := by decide

/-- Boolean implication gives score inequality in the position slot. -/
theorem scoreOfFlags_le_of_pos_imp (mLow mMarg slip gasHigh daily market : Bool)
    {b b' : Bool} (h : b = true → b' = true) :
    scoreOfFlags mLow mMarg b slip gasHigh daily market ≤
      scoreOfFlags mLow mMarg b' slip gasHigh daily market := by
  cases b with
  | false =>
    cases b' with
    | false => exact le_refl _
    | true => exact scoreOfFlags_mono_pos ..
  | true => rw [h rfl]

/-- Boolean implication gives score inequality in the slippage slot. -/
theorem scoreOfFlags_le_of_slip_imp (mLow mMarg pos gasHigh daily market : Bool)
    {b b' : Bool} (h : b = true → b' = true) :
    scoreOfFlags mLow mMarg pos b gasHigh daily market ≤
      scoreOfFlags mLow mMarg pos b' gasHigh daily market := by
  cases b with
  | false =>
    cases b' with
    | false => exact le_refl _
    | true => exact scoreOfFlags_mono_slip ..
  | true => rw [h rfl]

/-- Boolean implication gives score inequality in the gas slot. -/
theorem scoreOfFlags_le_of_gas_imp (mLow mMarg pos slip daily market : Bool)
    {b b' : Bool} (h : b = true → b' = true) :
    scoreOfFlags mLow mMarg pos slip b daily market ≤
      scoreOfFlags mLow mMarg pos slip b' daily market := by
  cases b with
  | false =>
    cases b' with
    | false => exact le_refl _
    | true => exact scoreOfFlags_mono_gas ..
  | true => rw [h rfl]

/-- The simplified price-impact estimate is monotone in the spread. -/
theorem calculatePriceImpact_mono {x x' : ℚ} (h : x ≤ x') :
    calculatePriceImpact x ≤ calculatePriceImpact x' := by
  unfold calculatePriceImpact
  exact max_le_max (le_refl _) (by nlinarith)

/-- C7: holding all other inputs fixed, increasing the position size, the
slippage driver (the spread percentage feeding the price-impact estimate),
or the fetched gas price never decreases the final risk score produced by
`assessOpportunityRisk` (penalties and the 100 cap included). -/
theorem risk_score_monotone (cfg : RiskConfig) (st : RiskState) (nowMs : ℤ)
    (p : ProfitabilitySummary) (pct : ℚ) (gas : Option ℚ) :
    (∀ a a' : ℚ, a ≤ a' →
        (assessOpportunityRisk cfg st nowMs { p with amountInETH := a }
            pct gas).1.riskScore ≤
          (assessOpportunityRisk cfg st nowMs { p with amountInETH := a' }
            pct gas).1.riskScore) ∧
      (∀ x x' : ℚ, x ≤ x' →
        (assessOpportunityRisk cfg st nowMs p x gas).1.riskScore ≤
          (assessOpportunityRisk cfg st nowMs p x' gas).1.riskScore) ∧
      (∀ g g' : ℚ, g ≤ g' →
        (assessOpportunityRisk cfg st nowMs p pct (some g)).1.riskScore ≤
          (assessOpportunityRisk cfg st nowMs p pct (some g')).1.riskScore) := by
  refine ⟨?_, ?_, ?_⟩
  · intro a a' hle
    simp only [assessOpportunityRisk]
    split_ifs
    · exact le_refl _
    · exact le_refl _
    · rw [assessChecks_riskScore_eq, assessChecks_riskScore_eq]
      exact scoreOfFlags_le_of_pos_imp _ _ _ _ _ _ fun h => by
        simp only [decide_eq_true_eq] at h ⊢
        exact lt_of_lt_of_le h hle
    · rw [assessChecks_riskScore_eq, assessChecks_riskScore_eq]
      exact scoreOfFlags_le_of_pos_imp _ _ _ _ _ _ fun h => by
        simp only [decide_eq_true_eq] at h ⊢
        exact lt_of_lt_of_le h hle
  · intro x x' hle
    simp only [assessOpportunityRisk]
    split_ifs
    · exact le_refl _
    · exact le_refl _
    · rw [assessChecks_riskScore_eq, assessChecks_riskScore_eq]
      exact scoreOfFlags_le_of_slip_imp _ _ _ _ _ _ fun h => by
        simp only [decide_eq_true_eq] at h ⊢
        exact lt_of_lt_of_le h (calculatePriceImpact_mono hle)
    · rw [assessChecks_riskScore_eq, assessChecks_riskScore_eq]
      exact scoreOfFlags_le_of_slip_imp _ _ _ _ _ _ fun h => by
        simp only [decide_eq_true_eq] at h ⊢
        exact lt_of_lt_of_le h (calculatePriceImpact_mono hle)
  · intro g g' hle
    simp only [assessOpportunityRisk]
    split_ifs
    · exact le_refl _
    · exact le_refl _
    · rw [assessChecks_riskScore_eq, assessChecks_riskScore_eq]
      exact scoreOfFlags_le_of_gas_imp _ _ _ _ _ _ fun h => by
        simp only [Option.elim, decide_eq_true_eq] at h ⊢
        exact lt_of_lt_of_le h hle
    · rw [assessChecks_riskScore_eq, assessChecks_riskScore_eq]
      exact scoreOfFlags_le_of_gas_imp _ _ _ _ _ _ fun h => by
        simp only [Option.elim, decide_eq_true_eq] at h ⊢
        exact lt_of_lt_of_le h hle

/-- Witness for C7 at concrete inputs: doubling the position size, the
spread driver, or the gas price never lowers the score. -/
theorem risk_score_monotone_witness :
    ((assessOpportunityRisk defaultRiskConfig initialRiskState 0
        { demoProfitSummary with amountInETH := 1 } 2 (some 30)).1.riskScore ≤
      (assessOpportunityRisk defaultRiskConfig initialRiskState 0
        { demoProfitSummary with amountInETH := 2 } 2 (some 30)).1.riskScore) ∧
      ((assessOpportunityRisk defaultRiskConfig initialRiskState 0
          demoProfitSummary 2 (some 30)).1.riskScore ≤
        (assessOpportunityRisk defaultRiskConfig initialRiskState 0
          demoProfitSummary 4 (some 30)).1.riskScore) ∧
      ((assessOpportunityRisk defaultRiskConfig initialRiskState 0
          demoProfitSummary 2 (some 30)).1.riskScore ≤
        (assessOpportunityRisk defaultRiskConfig initialRiskState 0
          demoProfitSummary 2 (some 60)).1.riskScore) := by
  have h := risk_score_monotone defaultRiskConfig initialRiskState 0
    demoProfitSummary 2 (some 30)
  exact ⟨h.1 1 2 (by norm_num), h.2.1 2 4 (by norm_num),
    h.2.2 30 60 (by norm_num)⟩

/-- One task step preserves the flag/critical-region accounting: with `R`
running tasks elsewhere, the running indicator of the stepping task plus
`R` always equals 1 when the flag is held and 0 when it is clear. -/
theorem taskStep_count {f f' : Bool} {p p' : TaskPhase}
    (h : TaskStep f p f' p') (R : ℕ)
    (hInv : (if p.isRunning then 1 else 0) + R = if f then 1 else 0) :
    (if p'.isRunning then 1 else 0) + R = if f' then 1 else 0 := by
  cases f <;> cases f' <;> cases h <;>
    simp_all [TaskPhase.isRunning] <;> omega

/-- A scheduler step preserves the accounting, generalized by an offset for
the tasks outside the stepped suffix. -/
theorem tasksStep_count {f f' : Bool} {ts ts' : List TaskPhase}
    (h : TasksStep f ts f' ts') :
    ∀ k : ℕ, runningCount ts + k = (if f then 1 else 0) →
      runningCount ts' + k = if f' then 1 else 0 := by
  induction h with
  | here hstep =>
    rename_i f2 p q rest
    intro k hInv
    simp only [runningCount, List.countP_cons] at hInv ⊢
    have hpre : (if p.isRunning then 1 else 0) +
        (List.countP TaskPhase.isRunning rest + k) = if f then 1 else 0 := by
      split_ifs at hInv ⊢ <;> omega
    have hpost := taskStep_count hstep
      (List.countP TaskPhase.isRunning rest + k) hpre
    split_ifs at hpost ⊢ <;> omega
  | there hsub ih =>
    rename_i f2 p rest rest2
    intro k hInv
    simp only [runningCount, List.countP_cons] at hInv ⊢
    have hpre : runningCount rest +
        ((if p.isRunning then 1 else 0) + k) = if f then 1 else 0 := by
      simp only [runningCount]
      split_ifs at hInv ⊢ <;> omega
    have hpost := ih ((if p.isRunning then 1 else 0) + k) hpre
    simp only [runningCount] at hpost
    split_ifs at hpost ⊢ <;> omega

/-- Reachable systems keep the exact accounting: the critical region holds
one task when `isExecuting` is set and none when it is clear. -/
theorem execReachable_flag_inv (n : ℕ) (s : ExecSystem)
    (h : ExecReachable n s) :
    runningCount s.tasks = if s.isExecuting then 1 else 0 := by
  induction h with
  | refl =>
    have hz : ∀ m : ℕ, runningCount (List.replicate m TaskPhase.idle) = 0 := by
      intro m
      induction m with
      | zero => rfl
      | succ m ih =>
        simpa [List.replicate_succ, runningCount, List.countP_cons,
          TaskPhase.isRunning] using ih
    simpa [initExecSystem] using hz n
  | tail _ hstep ih =>
    have := tasksStep_count hstep 0 (by simpa using ih)
    simpa using this

/-- C5: a second `executeArbitrage` request issued while one is in progress
returns the failure result with reason `Execution in progress`, changes no
state and makes no settlement-contract submission; and under the
cooperative-interleaving semantics of the executor, every reachable system
state has at most one invocation inside the critical submission window, so
no two flashloan submissions can ever overlap in time. -/
theorem single_flight_guarantee :
    (∀ (st : ExecutorState) (nowMs : ℤ) (env : ExecEnv),
        st.isExecuting = true →
        executeArbitrage st nowMs env =
          { result := ⟨false, "Execution in progress"⟩, state := st,
            submissions := [] }) ∧
      (∀ (n : ℕ) (s : ExecSystem), ExecReachable n s →
        runningCount s.tasks ≤ 1) := by
  constructor
  · intro st nowMs env h
    simp [executeArbitrage, h]
  · intro n s h
    have := execReachable_flag_inv n s h
    split_ifs at this <;> omega

/-- The two-step schedule reaching `demoExecSystem`: task 0 enters, then
task 1 hits the busy guard. -/
theorem demoExecSystem_reachable : ExecReachable 2 demoExecSystem := by
  have step1 : ExecSysStep (initExecSystem 2)
      ⟨true, [.running .validating, .idle]⟩ :=
    TasksStep.here TaskStep.enter
  have step2 : ExecSysStep ⟨true, [.running .validating, .idle]⟩
      demoExecSystem :=
    TasksStep.there (TasksStep.here TaskStep.rejectBusy)
  exact Relation.ReflTransGen.tail (Relation.ReflTransGen.single step1) step2

/-- Witness for C5: the busy executor rejects a concrete second request
without submitting, and the concrete two-task schedule above stays within
the single-flight bound. -/
theorem single_flight_guarantee_witness :
    executeArbitrage ⟨true, 0⟩ 100000 demoExecEnv =
        { result := ⟨false, "Execution in progress"⟩,
          state := ⟨true, 0⟩, submissions := [] } ∧
      runningCount demoExecSystem.tasks ≤ 1 :=
  ⟨single_flight_guarantee.1 ⟨true, 0⟩ 100000 demoExecEnv rfl,
    single_flight_guarantee.2 2 demoExecSystem demoExecSystem_reachable⟩

/-- C10: an invocation of `executeArbitrage` that starts with the
single-flight flag clear always returns with the flag clear again — on
successful submission, on every business rejection, and on a caught
exception — so one failed attempt never blocks later ones. -/
theorem executor_flag_always_cleared (st : ExecutorState) (nowMs : ℤ)
    (env : ExecEnv) (h : st.isExecuting = false) :
    (executeArbitrage st nowMs env).state.isExecuting = false := by
  simp only [executeArbitrage, h]
  rcases env.thrownMsg with _ | m <;> split_ifs <;> simp [h]

/-- Witness for C10: a concrete failed execution still returns with the
flag clear. -/
theorem executor_flag_always_cleared_witness :
    (executeArbitrage ⟨false, 0⟩ 100000 demoFailEnv).state.isExecuting = false :=
  executor_flag_always_cleared ⟨false, 0⟩ 100000 demoFailEnv rfl

end FlashArb
